import Mathlib

/-!
# Verification of the travel-ledger submission service

A shallow embedding of `src/server/app.py`: input sanitization, txid
validation, the sliding-window rate limiter, payment verification against a
blockchain fact-source, geocoding, the append-only ledger keyed by txid, the
JSON exporter, and the `/api/submit` orchestrator.

External HTTP calls are modelled by passing the fact-source's response (or
`none` for an unreachable service / raised exception) as a parameter.
Python floats carrying monetary amounts and coordinates are modelled as
rationals; timestamps from `time.time()` are rationals as well.  Whitespace
is the ASCII whitespace class matched by Python's `\s` on ASCII text.
-/

namespace TravelServer

/-! ## Configuration constants (module-level constants in app.py) -/

def ALIAS_MAX : Nat := 30
def CITY_MAX : Nat := 60
def COUNTRY_MAX : Nat := 60
def RATE_LIMIT_WINDOW_S : Rat := 60
def RATE_LIMIT_MAX : Nat := 12

/-! ## Sanitizer (`sanitize_text`) and txid validation (`valid_txid`) -/

/-- The ASCII whitespace characters recognised by Python's `str.strip`
and the regex class `\s`: space, tab, newline, carriage return,
vertical tab, form feed. -/
def isPySpace (c : Char) : Bool :=
  c = ' ' || c = '\t' || c = '\n' || c = '\x0d' || c = '\x0b' || c = '\x0c'

/-- `s.strip()` on the left: drop leading whitespace. -/
def lstripChars (l : List Char) : List Char := l.dropWhile isPySpace

/-- `s.strip()` on the right: drop trailing whitespace. -/
def rstripChars (l : List Char) : List Char :=
  (l.reverse.dropWhile isPySpace).reverse

/-- `s.strip()`: drop leading and trailing whitespace. -/
def stripChars (l : List Char) : List Char := rstripChars (lstripChars l)

/-- Worker for `re.sub(r"\s+", " ", s)`: replace every maximal run of
whitespace by a single space.  The boolean records whether the previously
emitted character came from a whitespace run. -/
def collapseAux : Bool → List Char → List Char
  | _, [] => []
  | prevSpace, c :: rest =>
    if isPySpace c then
      if prevSpace then collapseAux true rest
      else ' ' :: collapseAux true rest
    else c :: collapseAux false rest

/-- `re.sub(r"\s+", " ", s)`. -/
def collapseWS (l : List Char) : List Char := collapseAux false l

/-- `sanitize_text(s, max_len)`:
`s = (s or "").strip(); s = re.sub(r"\s+", " ", s); s = s[:max_len]`.
The argument is an `Option` because the JSON field may be `null`/missing
(Python's `s or ""`). -/
def sanitize_text (s : Option String) (max_len : Nat) : String :=
  String.mk ((collapseWS (stripChars (s.getD "").toList)).take max_len)

/-- One character of `[0-9a-fA-F]`. -/
def isHexChar (c : Char) : Bool :=
  ('0' ≤ c && c ≤ '9') || ('a' ≤ c && c ≤ 'f') || ('A' ≤ c && c ≤ 'F')

/-- `valid_txid(txid)`: `re.fullmatch(r"[0-9a-fA-F]{64}", txid or "")`. -/
def valid_txid (txid : String) : Bool :=
  txid.toList.length == 64 && txid.toList.all isHexChar

/-! ## Payment verifier (`tx_amount_to_our_address_btc`) -/

/-- One transaction output as reported by the blockchain fact-source:
`scriptpubkey_address` may be absent (`o.get("scriptpubkey_address")`),
`value` is in satoshis (`int(o.get("value", 0))`). -/
structure TxOut where
  scriptpubkey_address : Option String
  value : Int
deriving DecidableEq

/-- The transaction body: its output list (`tx.get("vout", [])`). -/
structure TxData where
  vout : List TxOut
deriving DecidableEq

/-- The outcome of an HTTP GET: `none` when the service is unreachable or an
exception is raised, otherwise the status code and parsed body. -/
abbrev HttpResult (α : Type) := Option (Nat × α)

/-- The summation loop of `tx_amount_to_our_address_btc`:
`sats += int(o.get("value", 0))` over outputs paying `addr`. -/
def outputSats (vouts : List TxOut) (addr : String) : Int :=
  vouts.foldl
    (fun sats o =>
      if o.scriptpubkey_address = some addr then sats + o.value else sats) 0

/-- `tx_amount_to_our_address_btc(txid, addr)`, with the fact-source's
response for `txid` passed in as `resp`.  Returns the paid amount in BTC
(`sats / 1e8`) when positive, `none` otherwise. -/
def tx_amount_to_our_address_btc (resp : HttpResult TxData) (addr : String) :
    Option Rat :=
  match resp with
  | none => none
  | some (status, tx) =>
    if status ≠ 200 then none
    else
      let sats := outputSats tx.vout addr
      if sats ≤ 0 then none else some ((sats : Rat) / (10 : Rat) ^ 8)

/-! ## Location resolver (`geocode_city_country`) -/

/-- One geocoder candidate (`{lat, lon}`), already parsed to numbers
(`float(data[0]["lat"])`; a parse failure is an exception, i.e. `resp = none`). -/
structure GeoResult where
  lat : Rat
  lon : Rat
deriving DecidableEq

/-- `geocode_city_country(city, country)`, with the geocoder's response for
the query passed in as `resp`.  Takes the first candidate of a non-empty
result list. -/
def geocode_city_country (resp : HttpResult (List GeoResult)) :
    Option (Rat × Rat) :=
  match resp with
  | none => none
  | some (status, data) =>
    if status ≠ 200 then none
    else
      match data with
      | [] => none
      | g :: _ => some (g.lat, g.lon)

/-! ## Rate limiter (`rate_limited`) -/

/-- `rate_limited(ip)` acting on one origin's recorded hit list: discard
timestamps `t` with `now - t ≥ 60`, append `now`, report whether the
resulting count exceeds `RATE_LIMIT_MAX`.  Returns the new hit list and the
limited flag. -/
def rate_limited (hits : List Rat) (now : Rat) : List Rat × Bool :=
  let kept := hits.filter (fun t => decide (now - t < RATE_LIMIT_WINDOW_S))
  let hits2 := kept ++ [now]
  (hits2, decide (hits2.length > RATE_LIMIT_MAX))

/-- Iterate the rate limiter over a sequence of check times (one origin). -/
def runChecks : List Rat → List Rat → List Rat × List Bool
  | hits, [] => (hits, [])
  | hits, t :: ts =>
    let r := rate_limited hits t
    let rest := runChecks r.1 ts
    (rest.1, r.2 :: rest.2)

/-! ## Ledger store -/

/-- One row of the `entries` table (without the autoincrement `id`; a row's
position in the ledger list is its insertion rank). -/
structure Entry where
  txid : String
  «alias» : String
  city : String
  country : String
  lat : Rat
  lng : Rat
  amount_btc : Rat
  iso_date : String
deriving DecidableEq

/-- Whether an entry with the given txid is already committed. -/
def hasTxid (ledger : List Entry) (t : String) : Bool :=
  ledger.any (fun e => e.txid == t)

/-- Number of committed entries carrying the given txid. -/
def countTxid (ledger : List Entry) (t : String) : Nat :=
  (ledger.filter (fun e => e.txid == t)).length

/-- The `INSERT INTO entries ...` guarded by the `UNIQUE` constraint on
`txid`: `none` models `sqlite3.IntegrityError`. -/
def insert_entry (ledger : List Entry) (e : Entry) : Option (List Entry) :=
  if hasTxid ledger e.txid then none else some (ledger ++ [e])

/-! ## Exporter (`export_log_json`) -/

/-- The document written to `site/data/log.json`. -/
structure ExportDoc where
  origin_label : String
  btc_address : String
  exported_iso : String
  entries : List Entry
deriving DecidableEq

/-- `export_log_json()`: read all entries in ascending `id` order and build
the document.  `r["«alias»"] or ""` maps an empty «alias» to the empty string. -/
def export_log_json (ledger : List Entry)
    (origin_label btc_address exported_iso : String) : ExportDoc :=
  { origin_label, btc_address, exported_iso,
    entries :=
      ledger.map (fun e =>
        { e with «alias» := if e.«alias» = "" then "" else e.«alias» }) }

/-! ## The submission orchestrator (`api_submit`) -/

/-- The environment of one request: configuration read at startup, the
fact-sources' responses for this request's queries, the clock, and whether
`export_log_json` succeeds (`false` models a raised exception swallowed by
the handler). -/
structure Env where
  btc_address : String
  origin_label : String
  txResp : HttpResult TxData
  geoResp : HttpResult (List GeoResult)
  now_iso : String
  exportOk : Bool

/-- The JSON body of the request; each field may be missing or `null`. -/
structure SubmitReq where
  txid : Option String
  «alias» : Option String
  city : Option String
  country : Option String

/-- The response categories of `api_submit`. -/
inductive SubmitResp where
  | quotaExceeded
  | badTxid
  | badLocation
  | paymentUnverified
  | locationUnresolved
  | duplicate
  | accepted
deriving DecidableEq

/-- The HTTP status carried by each response. -/
def statusCode : SubmitResp → Nat
  | .quotaExceeded => 429
  | .badTxid => 400
  | .badLocation => 400
  | .paymentUnverified => 400
  | .locationUnresolved => 400
  | .duplicate => 409
  | .accepted => 200

/-- Server-side mutable state: the ledger table, the per-origin rate-limit
map `_ip_hits`, and the last exported document (the contents of
`log.json`, `none` before any export). -/
structure ServerState where
  ledger : List Entry
  ipHits : String → List Rat
  exported : Option ExportDoc

/-- The Entry assembled by `api_submit` just before the insert, from the
sanitized fields, the verified amount and the resolved coordinates. -/
def mkEntry (env : Env) (req : SubmitReq) (amount : Rat) (coords : Rat × Rat) :
    Entry :=
  { txid := sanitize_text req.txid 64,
    «alias» := sanitize_text req.«alias» ALIAS_MAX,
    city := sanitize_text req.city CITY_MAX,
    country := sanitize_text req.country COUNTRY_MAX,
    lat := coords.1, lng := coords.2, amount_btc := amount,
    iso_date := env.now_iso }

/-- `api_submit()`: rate gate, sanitize, validate, verify payment, resolve
location, insert with duplicate detection, best-effort export. -/
def api_submit (env : Env) (st : ServerState) (ip : String) (now : Rat)
    (req : SubmitReq) : ServerState × SubmitResp :=
  let rl := rate_limited (st.ipHits ip) now
  let st1 : ServerState := { st with ipHits := Function.update st.ipHits ip rl.1 }
  if rl.2 then (st1, .quotaExceeded)
  else
    let txid := sanitize_text req.txid 64
    let «alias» := sanitize_text req.«alias» ALIAS_MAX
    let city := sanitize_text req.city CITY_MAX
    let country := sanitize_text req.country COUNTRY_MAX
    if valid_txid txid = false then (st1, .badTxid)
    else if city = "" ∨ country = "" then (st1, .badLocation)
    else
      match tx_amount_to_our_address_btc env.txResp env.btc_address with
      | none => (st1, .paymentUnverified)
      | some amount_btc =>
        match geocode_city_country env.geoResp with
        | none => (st1, .locationUnresolved)
        | some coords =>
          let e : Entry := mkEntry env req amount_btc coords
          match insert_entry st1.ledger e with
          | none => (st1, .duplicate)
          | some ledger2 =>
            let st2 : ServerState := { st1 with ledger := ledger2 }
            let st3 : ServerState :=
              if env.exportOk then
                { st2 with
                  exported := some (export_log_json ledger2 env.origin_label
                    env.btc_address env.now_iso) }
              else st2
            (st3, .accepted)

/-! ## Concrete fixtures used by the witness theorems -/

/-- The initial server state: empty ledger, no recorded hits, no export. -/
def state0 : ServerState :=
  { ledger := [], ipHits := fun _ => [], exported := none }

/-- The default configured receiving address of app.py. -/
def addrW : String := "bc1qexampleaddressxxxxxxxxxxxxxxxxxxxxxx"

/-- The spec's scenario txid: `"a" * 64`. -/
def txA : String := String.mk (List.replicate 64 'a')

/-- A fact-source environment in which the transaction pays 150000 satoshis
to the configured address and the geocoder resolves Nanaimo, Canada. -/
def envW : Env :=
  { btc_address := addrW,
    origin_label := "Vancouver Island, BC, Canada",
    txResp := some (200, ⟨[⟨some addrW, 150000⟩]⟩),
    geoResp := some (200, [⟨(491659 : Rat) / 10000, (-1239401 : Rat) / 10000⟩]),
    now_iso := "2026-10-12T00:00:00Z",
    exportOk := true }

/-- The spec's scenario request. -/
def reqW : SubmitReq :=
  { txid := some txA, «alias» := some "alice", city := some "Nanaimo",
    country := some "Canada" }

/-- A request whose txid is not 64 hex characters. -/
def reqBad : SubmitReq :=
  { txid := some "xyz", «alias» := none, city := some "Nanaimo",
    country := some "Canada" }

/-- A 61-character city (59 `a`s, a space, one `a`) whose sanitized form is
truncated right at the internal space, leaving a trailing space. -/
def cityTrail : String := String.mk (List.replicate 59 'a' ++ [' ', 'a'])

/-- A valid submission carrying `cityTrail` as the city. -/
def reqTrail : SubmitReq :=
  { txid := some txA, «alias» := none, city := some cityTrail,
    country := some "Canada" }

/-- Thirteen check times inside one 60-second window. -/
def ts13 : List Rat := (List.range 13).map (fun (k : Nat) => (k : Rat))

/-- The scenario amount: 150000 satoshis in BTC. -/
def amountW : Rat := (15 : Rat) / 10000

/-- The scenario coordinates for Nanaimo, Canada. -/
def coordsW : Rat × Rat := ((491659 : Rat) / 10000, (-1239401 : Rat) / 10000)

/-- The origin used by the scenario submissions. -/
def ipW : String := "198.51.100.7"

/-- The Entry committed by the scenario submission. -/
def entryW : Entry := mkEntry envW reqW amountW coordsW

/-- The server state after the scenario submission is accepted from the
initial state. -/
def stW : ServerState :=
  { ledger := [entryW],
    ipHits := Function.update state0.ipHits ipW
      (rate_limited (state0.ipHits ipW) 0).1,
    exported := some (export_log_json [entryW] envW.origin_label
      envW.btc_address envW.now_iso) }

/-- The Entry committed by the trailing-space submission. -/
def entryTrail : Entry := mkEntry envW reqTrail amountW coordsW

/-- Shape of a sanitized bounded text field: within the length bound, no
leading whitespace, no two adjacent whitespace characters, and every
whitespace character is a plain space. -/
def wfText (s : String) (n : Nat) : Prop :=
  s.length ≤ n ∧
  (∀ c, s.toList.head? = some c → isPySpace c = false) ∧
  s.toList.Chain' (fun x y => ¬(isPySpace x = true ∧ isPySpace y = true)) ∧
  (∀ c ∈ s.toList, isPySpace c = true → c = ' ')

/-- Well-formedness of a committed Entry: txid is 64 hex characters, city
and country are non-empty and within 60 characters, the alias is within
30, and the three text fields are in sanitized shape. -/
def entryWF (e : Entry) : Prop :=
  valid_txid e.txid = true ∧
  e.city ≠ "" ∧ e.country ≠ "" ∧
  wfText e.city CITY_MAX ∧ wfText e.country COUNTRY_MAX ∧
  wfText e.«alias» ALIAS_MAX

/-! ## Sanitizer lemmas -/

theorem dropWhile_head_not (p : Char → Bool) (l : List Char) :
    ∀ c, ((l.dropWhile p).head? = some c) → p c = false := by
  induction l with
  | nil => intro c h; simp [List.dropWhile] at h
  | cons a rest ih =>
    intro c h
    rw [List.dropWhile_cons] at h
    by_cases hp : p a
    · rw [if_pos hp] at h; exact ih c h
    · rw [if_neg hp] at h
      simp only [List.head?_cons, Option.some.injEq] at h
      subst h
      simpa using hp

theorem rstrip_isPrefix (l : List Char) : rstripChars l <+: l := by
  have h := List.dropWhile_suffix (l := l.reverse) isPySpace
  rw [← List.reverse_suffix]
  simpa [rstripChars] using h

theorem strip_head_not_space (l : List Char) :
    ∀ c, ((stripChars l).head? = some c) → isPySpace c = false := by
  intro c h
  obtain ⟨t, ht⟩ := rstrip_isPrefix (lstripChars l)
  have hh : (lstripChars l).head? = some c := by
    cases hs : stripChars l with
    | nil => rw [hs] at h; simp at h
    | cons a rest =>
      rw [hs] at h
      rw [← ht]
      rw [stripChars] at hs
      rw [hs]
      simpa using h
  exact dropWhile_head_not isPySpace l c hh

theorem strip_getLast_not_space (l : List Char) :
    ∀ c, ((stripChars l).getLast? = some c) → isPySpace c = false := by
  intro c h
  rw [stripChars, rstripChars, List.getLast?_reverse] at h
  exact dropWhile_head_not isPySpace _ c h

theorem collapseAux_true_head (l : List Char) :
    ∀ c, ((collapseAux true l).head? = some c) → isPySpace c = false := by
  induction l with
  | nil => intro c h; simp [collapseAux] at h
  | cons a rest ih =>
    intro c h
    by_cases hp : isPySpace a
    · simp only [collapseAux, hp, if_true, if_pos] at h
      exact ih c h
    · simp only [collapseAux, hp, if_false, Bool.false_eq_true,
        List.head?_cons, Option.some.injEq] at h
      subst h
      simpa using hp

theorem collapseAux_head_of_head (l : List Char)
    (hl : ∀ c, l.head? = some c → isPySpace c = false) :
    ∀ b c, ((collapseAux b l).head? = some c) → isPySpace c = false := by
  intro b c h
  cases l with
  | nil => simp [collapseAux] at h
  | cons a rest =>
    have ha : isPySpace a = false := hl a rfl
    simp only [collapseAux, ha, Bool.false_eq_true, if_false,
      List.head?_cons, Option.some.injEq] at h
    subst h
    exact ha

theorem collapseAux_chain (l : List Char) :
    ∀ b : Bool, (collapseAux b l).Chain'
      (fun x y => ¬(isPySpace x = true ∧ isPySpace y = true)) := by
  induction l with
  | nil => intro b; simp [collapseAux]
  | cons a rest ih =>
    intro b
    by_cases hp : isPySpace a
    · cases b with
      | true => simpa [collapseAux, hp] using ih true
      | false =>
        simp only [collapseAux, hp, if_true, Bool.false_eq_true, if_false]
        rw [List.chain'_cons']
        refine ⟨?_, ih true⟩
        intro y hy hcontra
        have := collapseAux_true_head rest y (by simpa using hy)
        rw [this] at hcontra
        exact Bool.noConfusion hcontra.2
    · simp only [collapseAux, hp, Bool.false_eq_true, if_false]
      rw [List.chain'_cons']
      refine ⟨?_, ih false⟩
      intro y hy hcontra
      exact hp hcontra.1

theorem collapseAux_spaces (l : List Char) :
    ∀ b, ∀ c ∈ collapseAux b l, isPySpace c = true → c = ' ' := by
  induction l with
  | nil => intro b c hc; simp [collapseAux] at hc
  | cons a rest ih =>
    intro b c hc hs
    by_cases hp : isPySpace a
    · cases b with
      | true =>
        simp only [collapseAux, hp, if_true, if_pos] at hc
        exact ih true c hc hs
      | false =>
        simp only [collapseAux, hp, if_true, Bool.false_eq_true, if_false] at hc
        rcases List.mem_cons.mp hc with h | h
        · exact h
        · exact ih true c h hs
    · simp only [collapseAux, hp, Bool.false_eq_true, if_false] at hc
      rcases List.mem_cons.mp hc with h | h
      · subst h; exact absurd hs hp
      · exact ih false c h hs

theorem collapseAux_getLast (d : Char) (hns : isPySpace d = false) :
    ∀ (l : List Char), l.getLast? = some d →
      ∀ b, (collapseAux b l).getLast? = some d := by
  intro l
  induction l with
  | nil => intro hd; simp at hd
  | cons a rest ih =>
    intro hd b
    cases rest with
    | nil =>
      rw [List.getLast?_singleton, Option.some.injEq] at hd
      subst hd
      simp [collapseAux, hns]
    | cons a2 rest2 =>
      rw [List.getLast?_cons_cons] at hd
      have key := ih hd
      by_cases hp : isPySpace a
      · cases b with
        | true =>
          have hstep : collapseAux true (a :: a2 :: rest2) =
              collapseAux true (a2 :: rest2) := by
            simp [collapseAux, hp]
          rw [hstep]
          exact key true
        | false =>
          have hstep : collapseAux false (a :: a2 :: rest2) =
              ' ' :: collapseAux true (a2 :: rest2) := by
            simp [collapseAux, hp]
          rw [hstep]
          cases hX : collapseAux true (a2 :: rest2) with
          | nil =>
            have k := key true
            rw [hX] at k
            simp at k
          | cons y ys =>
            have k := key true
            rw [hX] at k
            rw [List.getLast?_cons_cons]
            exact k
      · have hstep : collapseAux b (a :: a2 :: rest2) =
            a :: collapseAux false (a2 :: rest2) := by
          cases b <;> simp [collapseAux, hp]
        rw [hstep]
        cases hX : collapseAux false (a2 :: rest2) with
        | nil =>
          have k := key false
          rw [hX] at k
          simp at k
        | cons y ys =>
          have k := key false
          rw [hX] at k
          rw [List.getLast?_cons_cons]
          exact k

theorem collapseAux_filter (l : List Char) :
    ∀ b, (collapseAux b l).filter (fun c => !isPySpace c) =
      l.filter (fun c => !isPySpace c) := by
  induction l with
  | nil => intro b; simp [collapseAux]
  | cons a rest ih =>
    intro b
    have hsp : isPySpace ' ' = true := by decide
    by_cases hp : isPySpace a
    · cases b with
      | true => simp [collapseAux, hp, List.filter_cons, ih true]
      | false => simp [collapseAux, hp, hsp, List.filter_cons, ih true]
    · simp [collapseAux, hp, List.filter_cons, ih false]

theorem dropWhile_filter_not (p : Char → Bool) (l : List Char) :
    (l.dropWhile p).filter (fun c => !p c) = l.filter (fun c => !p c) := by
  induction l with
  | nil => rfl
  | cons a rest ih =>
    by_cases hp : p a
    · simp [List.dropWhile_cons, hp, List.filter_cons, ih]
    · simp [List.dropWhile_cons, hp, List.filter_cons]

theorem strip_filter_not (l : List Char) :
    (stripChars l).filter (fun c => !isPySpace c) =
      l.filter (fun c => !isPySpace c) := by
  rw [stripChars, rstripChars, List.filter_reverse, dropWhile_filter_not,
    List.filter_reverse, List.reverse_reverse]
  exact dropWhile_filter_not isPySpace l

theorem collapseWS_strip_getLast (l : List Char) :
    ∀ c, ((collapseWS (stripChars l)).getLast? = some c) →
      isPySpace c = false := by
  intro c h
  cases hL : (stripChars l).getLast? with
  | none =>
    rw [List.getLast?_eq_none_iff] at hL
    rw [collapseWS, hL] at h
    simp [collapseAux] at h
  | some d =>
    have hd := strip_getLast_not_space l d hL
    have := collapseAux_getLast d hd (stripChars l) hL false
    rw [collapseWS, this, Option.some.injEq] at h
    subst h
    exact hd

/-- C9: `sanitize_text` trims leading and trailing whitespace, collapses
internal whitespace runs to a single space, and truncates to the maximum
length, in that order; it is a total pure function whose output never
exceeds the maximum length, and an absent (`null`/missing) input yields the
empty string.  The normal form before truncation has no leading or trailing
whitespace, no two adjacent whitespace characters, every remaining
whitespace character is a single space, and the non-whitespace characters
of the input are preserved in order. -/
theorem C9_sanitizer_contract (s : String) (n : Nat) :
    sanitize_text none n = "" ∧
    sanitize_text (some s) n =
      String.mk ((collapseWS (stripChars s.toList)).take n) ∧
    (sanitize_text (some s) n).length ≤ n ∧
    (∀ c, (collapseWS (stripChars s.toList)).head? = some c →
      isPySpace c = false) ∧
    (∀ c, (collapseWS (stripChars s.toList)).getLast? = some c →
      isPySpace c = false) ∧
    (collapseWS (stripChars s.toList)).Chain'
      (fun x y => ¬(isPySpace x = true ∧ isPySpace y = true)) ∧
    (∀ c ∈ collapseWS (stripChars s.toList), isPySpace c = true → c = ' ') ∧
    (collapseWS (stripChars s.toList)).filter (fun c => !isPySpace c) =
      s.toList.filter (fun c => !isPySpace c) := by
  refine ⟨?_, rfl, ?_, ?_, collapseWS_strip_getLast s.toList, collapseAux_chain _ false,
    collapseAux_spaces _ false, ?_⟩
  · show String.mk ((collapseWS (stripChars ("".toList))).take n) = ""
    have h0 : collapseWS (stripChars "".toList) = [] := rfl
    rw [h0, List.take_nil]
  · show (String.mk ((collapseWS (stripChars s.toList)).take n)).length ≤ n
    have : (String.mk ((collapseWS (stripChars s.toList)).take n)).length =
        ((collapseWS (stripChars s.toList)).take n).length := rfl
    rw [this, List.length_take]
    exact min_le_left _ _
  · exact collapseAux_head_of_head _ (strip_head_not_space s.toList) false
  · rw [collapseWS, collapseAux_filter]
    exact strip_filter_not s.toList

/-- Witness for C9 at a concrete input: the sanitizer applied to
`"  a   b  "` with limit 5 agrees with strip-collapse-truncate. -/
theorem C9_sanitizer_contract_witness :
    sanitize_text (some "  a   b  ") 5 =
      String.mk ((collapseWS (stripChars ("  a   b  ").toList)).take 5) :=
  (C9_sanitizer_contract "  a   b  " 5).2.1

/-! ## Step lemmas for the orchestrator -/

theorem api_submit_quota (env : Env) (st : ServerState) (ip : String)
    (now : Rat) (req : SubmitReq)
    (h : (rate_limited (st.ipHits ip) now).2 = true) :
    api_submit env st ip now req =
      ({ st with ipHits :=
          Function.update st.ipHits ip (rate_limited (st.ipHits ip) now).1 },
       SubmitResp.quotaExceeded) := by
  simp [api_submit, h]

theorem api_submit_badTxid (env : Env) (st : ServerState) (ip : String)
    (now : Rat) (req : SubmitReq)
    (hrl : (rate_limited (st.ipHits ip) now).2 = false)
    (hbad : valid_txid (sanitize_text req.txid 64) = false) :
    api_submit env st ip now req =
      ({ st with ipHits :=
          Function.update st.ipHits ip (rate_limited (st.ipHits ip) now).1 },
       SubmitResp.badTxid) := by
  simp [api_submit, hrl, hbad]

theorem api_submit_badLocation (env : Env) (st : ServerState) (ip : String)
    (now : Rat) (req : SubmitReq)
    (hrl : (rate_limited (st.ipHits ip) now).2 = false)
    (hv : valid_txid (sanitize_text req.txid 64) = true)
    (hcc : sanitize_text req.city CITY_MAX = "" ∨
      sanitize_text req.country COUNTRY_MAX = "") :
    api_submit env st ip now req =
      ({ st with ipHits :=
          Function.update st.ipHits ip (rate_limited (st.ipHits ip) now).1 },
       SubmitResp.badLocation) := by
  simp [api_submit, hrl, hv, hcc]

theorem api_submit_payment_none (env : Env) (st : ServerState) (ip : String)
    (now : Rat) (req : SubmitReq)
    (hrl : (rate_limited (st.ipHits ip) now).2 = false)
    (hv : valid_txid (sanitize_text req.txid 64) = true)
    (hc : sanitize_text req.city CITY_MAX ≠ "")
    (hn : sanitize_text req.country COUNTRY_MAX ≠ "")
    (htx : tx_amount_to_our_address_btc env.txResp env.btc_address = none) :
    api_submit env st ip now req =
      ({ st with ipHits :=
          Function.update st.ipHits ip (rate_limited (st.ipHits ip) now).1 },
       SubmitResp.paymentUnverified) := by
  simp [api_submit, hrl, hv, hc, hn, htx]

theorem api_submit_geo_none (env : Env) (st : ServerState) (ip : String)
    (now : Rat) (req : SubmitReq) (a : Rat)
    (hrl : (rate_limited (st.ipHits ip) now).2 = false)
    (hv : valid_txid (sanitize_text req.txid 64) = true)
    (hc : sanitize_text req.city CITY_MAX ≠ "")
    (hn : sanitize_text req.country COUNTRY_MAX ≠ "")
    (htx : tx_amount_to_our_address_btc env.txResp env.btc_address = some a)
    (hgeo : geocode_city_country env.geoResp = none) :
    api_submit env st ip now req =
      ({ st with ipHits :=
          Function.update st.ipHits ip (rate_limited (st.ipHits ip) now).1 },
       SubmitResp.locationUnresolved) := by
  simp [api_submit, hrl, hv, hc, hn, htx, hgeo]

theorem api_submit_duplicate (env : Env) (st : ServerState) (ip : String)
    (now : Rat) (req : SubmitReq) (a : Rat) (coords : Rat × Rat)
    (hrl : (rate_limited (st.ipHits ip) now).2 = false)
    (hv : valid_txid (sanitize_text req.txid 64) = true)
    (hc : sanitize_text req.city CITY_MAX ≠ "")
    (hn : sanitize_text req.country COUNTRY_MAX ≠ "")
    (htx : tx_amount_to_our_address_btc env.txResp env.btc_address = some a)
    (hgeo : geocode_city_country env.geoResp = some coords)
    (hdup : hasTxid st.ledger (sanitize_text req.txid 64) = true) :
    api_submit env st ip now req =
      ({ st with ipHits :=
          Function.update st.ipHits ip (rate_limited (st.ipHits ip) now).1 },
       SubmitResp.duplicate) := by
  simp [api_submit, hrl, hv, hc, hn, htx, hgeo, insert_entry, mkEntry, hdup]

theorem api_submit_accept (env : Env) (st : ServerState) (ip : String)
    (now : Rat) (req : SubmitReq) (a : Rat) (coords : Rat × Rat)
    (hrl : (rate_limited (st.ipHits ip) now).2 = false)
    (hv : valid_txid (sanitize_text req.txid 64) = true)
    (hc : sanitize_text req.city CITY_MAX ≠ "")
    (hn : sanitize_text req.country COUNTRY_MAX ≠ "")
    (htx : tx_amount_to_our_address_btc env.txResp env.btc_address = some a)
    (hgeo : geocode_city_country env.geoResp = some coords)
    (hdup : hasTxid st.ledger (sanitize_text req.txid 64) = false) :
    api_submit env st ip now req =
      ({ ledger := st.ledger ++ [mkEntry env req a coords],
         ipHits :=
           Function.update st.ipHits ip (rate_limited (st.ipHits ip) now).1,
         exported :=
           if env.exportOk then
             some (export_log_json (st.ledger ++ [mkEntry env req a coords])
               env.origin_label env.btc_address env.now_iso)
           else st.exported },
       SubmitResp.accepted) := by
  cases hE : env.exportOk <;>
    simp [api_submit, hrl, hv, hc, hn, htx, hgeo, insert_entry, mkEntry,
      hdup, hE]

/-! ## Evaluation of the scenario fixtures -/

theorem envW_tx : tx_amount_to_our_address_btc envW.txResp envW.btc_address =
    some amountW := by
  show tx_amount_to_our_address_btc
    (some (200, ⟨[⟨some addrW, 150000⟩]⟩)) addrW = some amountW
  have h1 : outputSats [⟨some addrW, (150000 : Int)⟩] addrW = 150000 := by
    simp [outputSats]
  simp only [tx_amount_to_our_address_btc, h1]
  norm_num [amountW]

theorem envW_geo : geocode_city_country envW.geoResp = some coordsW := rfl

theorem accW : api_submit envW state0 ipW 0 reqW =
    (stW, SubmitResp.accepted) := by
  rw [api_submit_accept envW state0 ipW 0 reqW amountW coordsW (by decide)
    (by decide) (by decide) (by decide) envW_tx envW_geo (by decide)]
  rfl

theorem accTrail : api_submit envW state0 "192.0.2.10" 0 reqTrail =
    ({ ledger := [entryTrail],
       ipHits := Function.update state0.ipHits "192.0.2.10"
         (rate_limited (state0.ipHits "192.0.2.10") 0).1,
       exported := some (export_log_json [entryTrail] envW.origin_label
         envW.btc_address envW.now_iso) }, SubmitResp.accepted) := by
  rw [api_submit_accept envW state0 "192.0.2.10" 0 reqTrail amountW coordsW
    (by decide) (by decide) (by decide) (by decide) envW_tx envW_geo
    (by decide)]
  rfl

/-- C2: a submission whose txid does not sanitize to 64 hex characters is
rejected with BadInput (HTTP 400) past the rate gate, and no Entry is
created: the ledger and the exported document are unchanged. -/
theorem C2_invalid_txid_rejected (env : Env) (st : ServerState) (ip : String)
    (now : Rat) (req : SubmitReq)
    (hrl : (rate_limited (st.ipHits ip) now).2 = false)
    (hbad : valid_txid (sanitize_text req.txid 64) = false) :
    (api_submit env st ip now req).2 = SubmitResp.badTxid ∧
    statusCode (api_submit env st ip now req).2 = 400 ∧
    (api_submit env st ip now req).1.ledger = st.ledger ∧
    (api_submit env st ip now req).1.exported = st.exported := by
  rw [api_submit_badTxid env st ip now req hrl hbad]
  exact ⟨rfl, rfl, rfl, rfl⟩

/-- Witness for C2: the request with txid `"xyz"` from the initial state is
rejected as BadInput and the ledger stays empty. -/
theorem C2_invalid_txid_rejected_witness :
    (api_submit envW state0 "203.0.113.7" 0 reqBad).2 = SubmitResp.badTxid ∧
    statusCode (api_submit envW state0 "203.0.113.7" 0 reqBad).2 = 400 ∧
    (api_submit envW state0 "203.0.113.7" 0 reqBad).1.ledger = state0.ledger ∧
    (api_submit envW state0 "203.0.113.7" 0 reqBad).1.exported =
      state0.exported :=
  C2_invalid_txid_rejected envW state0 "203.0.113.7" 0 reqBad (by decide)
    (by decide)

/-- C4: a submission rejected before the Persist step — quota exceeded, bad
input, payment unverified, or location unresolved — leaves the ledger and
the exported document unchanged; the only side effect is the rate-limit
attempt record for the requesting origin. -/
theorem C4_reject_no_side_effects (env : Env) (st : ServerState) (ip : String)
    (now : Rat) (req : SubmitReq)
    (h : (api_submit env st ip now req).2 = SubmitResp.quotaExceeded ∨
      (api_submit env st ip now req).2 = SubmitResp.badTxid ∨
      (api_submit env st ip now req).2 = SubmitResp.badLocation ∨
      (api_submit env st ip now req).2 = SubmitResp.paymentUnverified ∨
      (api_submit env st ip now req).2 = SubmitResp.locationUnresolved) :
    (api_submit env st ip now req).1.ledger = st.ledger ∧
    (api_submit env st ip now req).1.exported = st.exported ∧
    (api_submit env st ip now req).1.ipHits =
      Function.update st.ipHits ip (rate_limited (st.ipHits ip) now).1 ∧
    (∀ j, j ≠ ip → (api_submit env st ip now req).1.ipHits j = st.ipHits j) := by
  by_cases h1 : (rate_limited (st.ipHits ip) now).2 = true
  · rw [api_submit_quota env st ip now req h1]
    exact ⟨rfl, rfl, rfl, fun j hj => Function.update_noteq hj _ _⟩
  · have h1' : (rate_limited (st.ipHits ip) now).2 = false := by
      simpa using h1
    by_cases h2 : valid_txid (sanitize_text req.txid 64) = true
    · by_cases h3 : sanitize_text req.city CITY_MAX = "" ∨
        sanitize_text req.country COUNTRY_MAX = ""
      · rw [api_submit_badLocation env st ip now req h1' h2 h3]
        exact ⟨rfl, rfl, rfl, fun j hj => Function.update_noteq hj _ _⟩
      · push_neg at h3
        cases htx : tx_amount_to_our_address_btc env.txResp env.btc_address with
        | none =>
          rw [api_submit_payment_none env st ip now req h1' h2 h3.1 h3.2 htx]
          exact ⟨rfl, rfl, rfl, fun j hj => Function.update_noteq hj _ _⟩
        | some a =>
          cases hgeo : geocode_city_country env.geoResp with
          | none =>
            rw [api_submit_geo_none env st ip now req a h1' h2 h3.1 h3.2 htx
              hgeo]
            exact ⟨rfl, rfl, rfl, fun j hj => Function.update_noteq hj _ _⟩
          | some coords =>
            by_cases hdup : hasTxid st.ledger (sanitize_text req.txid 64) = true
            · rw [api_submit_duplicate env st ip now req a coords h1' h2 h3.1
                h3.2 htx hgeo hdup] at h
              simp at h
            · have hdup' : hasTxid st.ledger (sanitize_text req.txid 64) =
                  false := by simpa using hdup
              rw [api_submit_accept env st ip now req a coords h1' h2 h3.1
                h3.2 htx hgeo hdup'] at h
              simp at h
    · have h2' : valid_txid (sanitize_text req.txid 64) = false := by
        simpa using h2
      rw [api_submit_badTxid env st ip now req h1' h2']
      exact ⟨rfl, rfl, rfl, fun j hj => Function.update_noteq hj _ _⟩

/-- Witness for C4: the bad-input rejection from the initial state leaves
the ledger and export unchanged and touches only the caller's hit list. -/
theorem C4_reject_no_side_effects_witness :
    (api_submit envW state0 "203.0.113.9" 0 reqBad).1.ledger = state0.ledger ∧
    (api_submit envW state0 "203.0.113.9" 0 reqBad).1.exported =
      state0.exported ∧
    (api_submit envW state0 "203.0.113.9" 0 reqBad).1.ipHits =
      Function.update state0.ipHits "203.0.113.9"
        (rate_limited (state0.ipHits "203.0.113.9") 0).1 ∧
    (api_submit envW state0 "203.0.113.9" 0 reqBad).1.ipHits "198.51.100.1" =
      state0.ipHits "198.51.100.1" :=
  have h := C4_reject_no_side_effects envW state0 "203.0.113.9" 0 reqBad
    (Or.inr (Or.inl (by decide)))
  ⟨h.1, h.2.1, h.2.2.1, h.2.2.2 "198.51.100.1" (by decide)⟩

/-! ## Ledger counting lemmas -/

theorem countTxid_eq_zero (L : List Entry) (t : String)
    (h : hasTxid L t = false) : countTxid L t = 0 := by
  rw [countTxid, List.length_eq_zero, List.filter_eq_nil_iff]
  simp only [hasTxid, List.any_eq_false] at h
  exact h

theorem countTxid_append_one (L : List Entry) (e : Entry) (t : String)
    (h : e.txid = t) : countTxid (L ++ [e]) t = countTxid L t + 1 := by
  simp [countTxid, List.filter_append, List.filter_cons, h]

theorem hasTxid_append_self (L : List Entry) (e : Entry) (t : String)
    (h : e.txid = t) : hasTxid (L ++ [e]) t = true := by
  simp [hasTxid, List.any_append, h]

/-- Inversion: an accepted submission passed every gate, its txid was fresh,
and the final state is the committed one. -/
theorem api_submit_accept_inv (env : Env) (st st' : ServerState) (ip : String)
    (now : Rat) (req : SubmitReq)
    (h : api_submit env st ip now req = (st', SubmitResp.accepted)) :
    (rate_limited (st.ipHits ip) now).2 = false ∧
    valid_txid (sanitize_text req.txid 64) = true ∧
    sanitize_text req.city CITY_MAX ≠ "" ∧
    sanitize_text req.country COUNTRY_MAX ≠ "" ∧
    hasTxid st.ledger (sanitize_text req.txid 64) = false ∧
    ∃ a coords,
      tx_amount_to_our_address_btc env.txResp env.btc_address = some a ∧
      geocode_city_country env.geoResp = some coords ∧
      st' = { ledger := st.ledger ++ [mkEntry env req a coords],
              ipHits := Function.update st.ipHits ip
                (rate_limited (st.ipHits ip) now).1,
              exported :=
                if env.exportOk then
                  some (export_log_json (st.ledger ++ [mkEntry env req a coords])
                    env.origin_label env.btc_address env.now_iso)
                else st.exported } := by
  by_cases h1 : (rate_limited (st.ipHits ip) now).2 = true
  · rw [api_submit_quota env st ip now req h1] at h
    simp at h
  · have h1' : (rate_limited (st.ipHits ip) now).2 = false := by simpa using h1
    by_cases h2 : valid_txid (sanitize_text req.txid 64) = true
    · by_cases h3 : sanitize_text req.city CITY_MAX = "" ∨
        sanitize_text req.country COUNTRY_MAX = ""
      · rw [api_submit_badLocation env st ip now req h1' h2 h3] at h
        simp at h
      · push_neg at h3
        cases htx : tx_amount_to_our_address_btc env.txResp env.btc_address with
        | none =>
          rw [api_submit_payment_none env st ip now req h1' h2 h3.1 h3.2 htx]
            at h
          simp at h
        | some a =>
          cases hgeo : geocode_city_country env.geoResp with
          | none =>
            rw [api_submit_geo_none env st ip now req a h1' h2 h3.1 h3.2 htx
              hgeo] at h
            simp at h
          | some coords =>
            by_cases hdup : hasTxid st.ledger (sanitize_text req.txid 64) =
              true
            · rw [api_submit_duplicate env st ip now req a coords h1' h2 h3.1
                h3.2 htx hgeo hdup] at h
              simp at h
            · have hdup' : hasTxid st.ledger (sanitize_text req.txid 64) =
                  false := by simpa using hdup
              rw [api_submit_accept env st ip now req a coords h1' h2 h3.1
                h3.2 htx hgeo hdup'] at h
              simp only [Prod.mk.injEq, and_true] at h
              exact ⟨h1', h2, h3.1, h3.2, hdup', a, coords, rfl, rfl, h.symm⟩
    · have h2' : valid_txid (sanitize_text req.txid 64) = false := by
        simpa using h2
      rw [api_submit_badTxid env st ip now req h1' h2'] at h
      simp at h

/-- A submission whose txid is already committed never reaches the ledger:
the response is not acceptance and the ledger is unchanged. -/
theorem api_submit_dup_guard (env : Env) (st : ServerState) (ip : String)
    (now : Rat) (req : SubmitReq)
    (hdup : hasTxid st.ledger (sanitize_text req.txid 64) = true) :
    (api_submit env st ip now req).2 ≠ SubmitResp.accepted ∧
    (api_submit env st ip now req).1.ledger = st.ledger := by
  by_cases h1 : (rate_limited (st.ipHits ip) now).2 = true
  · rw [api_submit_quota env st ip now req h1]
    exact ⟨by simp, rfl⟩
  · have h1' : (rate_limited (st.ipHits ip) now).2 = false := by simpa using h1
    by_cases h2 : valid_txid (sanitize_text req.txid 64) = true
    · by_cases h3 : sanitize_text req.city CITY_MAX = "" ∨
        sanitize_text req.country COUNTRY_MAX = ""
      · rw [api_submit_badLocation env st ip now req h1' h2 h3]
        exact ⟨by simp, rfl⟩
      · push_neg at h3
        cases htx : tx_amount_to_our_address_btc env.txResp env.btc_address with
        | none =>
          rw [api_submit_payment_none env st ip now req h1' h2 h3.1 h3.2 htx]
          exact ⟨by simp, rfl⟩
        | some a =>
          cases hgeo : geocode_city_country env.geoResp with
          | none =>
            rw [api_submit_geo_none env st ip now req a h1' h2 h3.1 h3.2 htx
              hgeo]
            exact ⟨by simp, rfl⟩
          | some coords =>
            rw [api_submit_duplicate env st ip now req a coords h1' h2 h3.1
              h3.2 htx hgeo hdup]
            exact ⟨by simp, rfl⟩
    · have h2' : valid_txid (sanitize_text req.txid 64) = false := by
        simpa using h2
      rw [api_submit_badTxid env st ip now req h1' h2']
      exact ⟨by simp, rfl⟩

/-- C1: exactly-once per txid.  If a first submission is accepted, exactly
one Entry with its (sanitized) txid is stored; any second submission with
the same txid is never accepted and never changes the ledger — the stored
Entry is not overwritten — and when the second submission passes the rate
gate and both verification steps it is rejected precisely with the
Duplicate condition (HTTP 409). -/
theorem C1_exactly_once (env₁ env₂ : Env) (st st₁ : ServerState)
    (ip₁ ip₂ : String) (now₁ now₂ : Rat) (req₁ req₂ : SubmitReq)
    (hacc : api_submit env₁ st ip₁ now₁ req₁ = (st₁, SubmitResp.accepted))
    (hsame : sanitize_text req₂.txid 64 = sanitize_text req₁.txid 64) :
    countTxid st₁.ledger (sanitize_text req₁.txid 64) = 1 ∧
    (api_submit env₂ st₁ ip₂ now₂ req₂).2 ≠ SubmitResp.accepted ∧
    (api_submit env₂ st₁ ip₂ now₂ req₂).1.ledger = st₁.ledger ∧
    ((rate_limited (st₁.ipHits ip₂) now₂).2 = false →
      sanitize_text req₂.city CITY_MAX ≠ "" →
      sanitize_text req₂.country COUNTRY_MAX ≠ "" →
      (tx_amount_to_our_address_btc env₂.txResp env₂.btc_address).isSome =
        true →
      (geocode_city_country env₂.geoResp).isSome = true →
      (api_submit env₂ st₁ ip₂ now₂ req₂).2 = SubmitResp.duplicate ∧
      statusCode (api_submit env₂ st₁ ip₂ now₂ req₂).2 = 409) := by
  obtain ⟨hrl₁, hv₁, hc₁, hn₁, hfresh, a, coords, htx₁, hgeo₁, hst₁⟩ :=
    api_submit_accept_inv env₁ st st₁ ip₁ now₁ req₁ hacc
  have hledger : st₁.ledger = st.ledger ++ [mkEntry env₁ req₁ a coords] := by
    rw [hst₁]
  have htxid : (mkEntry env₁ req₁ a coords).txid =
      sanitize_text req₁.txid 64 := rfl
  have hdup₂ : hasTxid st₁.ledger (sanitize_text req₂.txid 64) = true := by
    rw [hsame, hledger]
    exact hasTxid_append_self _ _ _ htxid
  have hguard := api_submit_dup_guard env₂ st₁ ip₂ now₂ req₂ hdup₂
  refine ⟨?_, hguard.1, hguard.2, ?_⟩
  · rw [hledger, countTxid_append_one _ _ _ htxid,
      countTxid_eq_zero _ _ hfresh]
  · intro hrl₂ hc₂ hn₂ htx₂ hgeo₂
    obtain ⟨a₂, ha₂⟩ := Option.isSome_iff_exists.mp htx₂
    obtain ⟨coords₂, hco₂⟩ := Option.isSome_iff_exists.mp hgeo₂
    have hv₂ : valid_txid (sanitize_text req₂.txid 64) = true := by
      rw [hsame]; exact hv₁
    rw [api_submit_duplicate env₂ st₁ ip₂ now₂ req₂ a₂ coords₂ hrl₂ hv₂ hc₂
      hn₂ ha₂ hco₂ hdup₂]
    exact ⟨rfl, rfl⟩

/-- Witness for C1: the scenario submission is accepted once; resubmitting
the same txid leaves exactly one Entry and yields Duplicate. -/
theorem C1_exactly_once_witness :
    countTxid stW.ledger (sanitize_text reqW.txid 64) = 1 ∧
    (api_submit envW stW "203.0.113.5" 1 reqW).2 = SubmitResp.duplicate := by
  have h := C1_exactly_once envW envW state0 stW ipW "203.0.113.5" 0 1 reqW
    reqW accW rfl
  refine ⟨h.1, (h.2.2.2 ?_ ?_ ?_ ?_ ?_).1⟩
  · have hother : stW.ipHits "203.0.113.5" = [] := by
      show Function.update state0.ipHits ipW
        (rate_limited (state0.ipHits ipW) 0).1 "203.0.113.5" = []
      rw [Function.update_noteq (by decide)]
      rfl
    rw [hother]
    decide
  · decide
  · decide
  · rw [envW_tx]; rfl
  · rw [envW_geo]; rfl

/-- C3: the payment verifier reports `none` for an unreachable fact-source
or a non-200 status; on a 200 response it sums the value of every output
paying the configured address and succeeds with `sum / 10^8` exactly when
the sum is positive; in the spec's scenario (one output of 150000 satoshis
to the address, txid `"a"*64`) the submission is accepted with
`amount_btc = 0.0015`. -/
theorem C3_payment_verifier (addr : String) (tx : TxData) (code : Nat) :
    tx_amount_to_our_address_btc none addr = none ∧
    (code ≠ 200 → tx_amount_to_our_address_btc (some (code, tx)) addr =
      none) ∧
    (0 < outputSats tx.vout addr →
      tx_amount_to_our_address_btc (some (200, tx)) addr =
        some ((outputSats tx.vout addr : Rat) / (10 : Rat) ^ 8)) ∧
    (outputSats tx.vout addr ≤ 0 →
      tx_amount_to_our_address_btc (some (200, tx)) addr = none) ∧
    tx_amount_to_our_address_btc envW.txResp envW.btc_address =
      some amountW ∧
    (api_submit envW state0 ipW 0 reqW).2 = SubmitResp.accepted ∧
    (api_submit envW state0 ipW 0 reqW).1.ledger.map
      Entry.amount_btc = [amountW] := by
  refine ⟨rfl, ?_, ?_, ?_, envW_tx, by rw [accW], by rw [accW]; rfl⟩
  · intro h
    simp [tx_amount_to_our_address_btc, h]
  · intro h
    simp only [tx_amount_to_our_address_btc]
    rw [if_neg (by simp)]
    rw [if_neg (not_le.mpr h)]
  · intro h
    simp only [tx_amount_to_our_address_btc]
    rw [if_neg (by simp)]
    rw [if_pos h]

/-- Witness for C3: a 404 response and an unreachable fact-source both
yield `none`. -/
theorem C3_payment_verifier_witness :
    tx_amount_to_our_address_btc (some (404, ⟨[]⟩)) addrW = none ∧
    tx_amount_to_our_address_btc none addrW = none :=
  ⟨(C3_payment_verifier addrW ⟨[]⟩ 404).2.1 (by decide),
   (C3_payment_verifier addrW ⟨[]⟩ 404).1⟩

/-! ## Rate limiter lemmas -/

/-- Iterating the limiter over check times that all lie inside one window
(starting from prior hits that also stay inside the window of every check):
nothing is discarded, the hit list grows by one per check, and the k-th
check reports limited exactly when the running count exceeds the quota. -/
theorem runChecks_window (ts : List Rat) : ∀ (hits : List Rat),
    (∀ t ∈ ts, ∀ h ∈ hits, t - h < RATE_LIMIT_WINDOW_S) →
    (∀ a ∈ ts, ∀ b ∈ ts, a - b < RATE_LIMIT_WINDOW_S) →
    (runChecks hits ts).1 = hits ++ ts ∧
    (runChecks hits ts).2 = (List.range ts.length).map
      (fun k => decide (hits.length + k + 1 > RATE_LIMIT_MAX)) := by
  induction ts with
  | nil => intro hits _ _; exact ⟨by simp [runChecks], by simp [runChecks]⟩
  | cons t ts ih =>
    intro hits hw hts
    have hkeep : hits.filter
        (fun x => decide (t - x < RATE_LIMIT_WINDOW_S)) = hits :=
      List.filter_eq_self.mpr (fun a ha => by
        simp only [decide_eq_true_eq]
        exact hw t (List.mem_cons_self t ts) a ha)
    have hr : rate_limited hits t =
        (hits ++ [t], decide ((hits ++ [t]).length > RATE_LIMIT_MAX)) := by
      simp [rate_limited, hkeep]
    have hw' : ∀ u ∈ ts, ∀ h ∈ hits ++ [t], u - h < RATE_LIMIT_WINDOW_S := by
      intro u hu h hh
      rcases List.mem_append.mp hh with h1 | h1
      · exact hw u (List.mem_cons_of_mem _ hu) h h1
      · rw [List.mem_singleton] at h1
        subst h1
        exact hts u (List.mem_cons_of_mem _ hu) h (List.mem_cons_self _ _)
    have hts' : ∀ a ∈ ts, ∀ b ∈ ts, a - b < RATE_LIMIT_WINDOW_S :=
      fun a ha b hb =>
        hts a (List.mem_cons_of_mem _ ha) b (List.mem_cons_of_mem _ hb)
    obtain ⟨ih1, ih2⟩ := ih (hits ++ [t]) hw' hts'
    constructor
    · show (runChecks (rate_limited hits t).1 ts).1 = hits ++ t :: ts
      rw [hr, ih1]
      simp
    · show (rate_limited hits t).2 :: (runChecks (rate_limited hits t).1 ts).2 =
        (List.range (ts.length + 1)).map
          (fun k => decide (hits.length + k + 1 > RATE_LIMIT_MAX))
      rw [hr, ih2, List.range_succ_eq_map, List.map_cons, List.map_map]
      congr 1
      · rw [decide_eq_decide, List.length_append, List.length_singleton]
      · apply List.map_congr_left
        intro k hk
        simp only [Function.comp_apply]
        rw [decide_eq_decide, List.length_append, List.length_singleton]
        omega

/-- Past the rate gate, whatever happens later, the response is never
QuotaExceeded. -/
theorem api_submit_not_quota (env : Env) (st : ServerState) (ip : String)
    (now : Rat) (req : SubmitReq)
    (hrl : (rate_limited (st.ipHits ip) now).2 = false) :
    (api_submit env st ip now req).2 ≠ SubmitResp.quotaExceeded := by
  by_cases h2 : valid_txid (sanitize_text req.txid 64) = true
  · by_cases h3 : sanitize_text req.city CITY_MAX = "" ∨
      sanitize_text req.country COUNTRY_MAX = ""
    · rw [api_submit_badLocation env st ip now req hrl h2 h3]
      simp
    · push_neg at h3
      cases htx : tx_amount_to_our_address_btc env.txResp env.btc_address with
      | none =>
        rw [api_submit_payment_none env st ip now req hrl h2 h3.1 h3.2 htx]
        simp
      | some a =>
        cases hgeo : geocode_city_country env.geoResp with
        | none =>
          rw [api_submit_geo_none env st ip now req a hrl h2 h3.1 h3.2 htx
            hgeo]
          simp
        | some coords =>
          by_cases hdup : hasTxid st.ledger (sanitize_text req.txid 64) = true
          · rw [api_submit_duplicate env st ip now req a coords hrl h2 h3.1
              h3.2 htx hgeo hdup]
            simp
          · have hdup' : hasTxid st.ledger (sanitize_text req.txid 64) =
                false := by simpa using hdup
            rw [api_submit_accept env st ip now req a coords hrl h2 h3.1
              h3.2 htx hgeo hdup']
            simp
  · have h2' : valid_txid (sanitize_text req.txid 64) = false := by
      simpa using h2
    rw [api_submit_badTxid env st ip now req hrl h2']
    simp

/-- The thirteen check times of `ts13` all lie within one 60-second
window of each other. -/
theorem ts13_window :
    ∀ a ∈ ts13, ∀ b ∈ ts13, a - b < RATE_LIMIT_WINDOW_S := by
  intro a ha b hb
  simp only [ts13, List.mem_map, List.mem_range] at ha hb
  obtain ⟨i, hi, rfl⟩ := ha
  obtain ⟨j, hj, rfl⟩ := hb
  rw [RATE_LIMIT_WINDOW_S]
  have h1 : (i : Rat) ≤ 12 := by exact_mod_cast Nat.le_of_lt_succ hi
  have h2 : (0 : Rat) ≤ (j : Rat) := Nat.cast_nonneg j
  linarith

/-- C5: one rate-limiter check first discards the origin's timestamps
older than the window, appends the current time, and reports limited
exactly when the resulting count exceeds 12; a single origin checking
thirteen (or more) times inside one 60-second window is limited from the
13th check on and not before; once the window has fully elapsed a fresh
check passes; and `api_submit` answers QuotaExceeded (HTTP 429) exactly
when the check reports limited. -/
theorem C5_rate_limiter (ts hits : List Rat) (now : Rat) (env : Env)
    (st : ServerState) (ip : String) (req : SubmitReq) :
    rate_limited hits now =
      (hits.filter (fun t => decide (now - t < RATE_LIMIT_WINDOW_S)) ++ [now],
       decide ((hits.filter
         (fun t => decide (now - t < RATE_LIMIT_WINDOW_S))).length + 1 >
           RATE_LIMIT_MAX)) ∧
    ((∀ a ∈ ts, ∀ b ∈ ts, a - b < RATE_LIMIT_WINDOW_S) →
      (runChecks [] ts).2 = (List.range ts.length).map
        (fun k => decide (k + 1 > RATE_LIMIT_MAX))) ∧
    ((∀ t ∈ hits, RATE_LIMIT_WINDOW_S ≤ now - t) →
      rate_limited hits now = ([now], false)) ∧
    ((rate_limited (st.ipHits ip) now).2 = true →
      (api_submit env st ip now req).2 = SubmitResp.quotaExceeded ∧
      statusCode (api_submit env st ip now req).2 = 429) ∧
    ((rate_limited (st.ipHits ip) now).2 = false →
      (api_submit env st ip now req).2 ≠ SubmitResp.quotaExceeded) := by
  refine ⟨?_, ?_, ?_, ?_, api_submit_not_quota env st ip now req⟩
  · simp [rate_limited]
  · intro hts
    have h := (runChecks_window ts [] (by simp) hts).2
    rw [h]
    apply List.map_congr_left
    intro k hk
    rw [decide_eq_decide]
    simp
  · intro hold
    have hfilter : hits.filter
        (fun t => decide (now - t < RATE_LIMIT_WINDOW_S)) = [] := by
      rw [List.filter_eq_nil_iff]
      intro t ht
      simp only [decide_eq_true_eq]
      exact not_lt.mpr (hold t ht)
    simp [rate_limited, hfilter, RATE_LIMIT_MAX]
  · intro h
    rw [api_submit_quota env st ip now req h]
    exact ⟨rfl, rfl⟩

/-- Witness for C5: over the thirteen concrete check times `0, 1, …, 12`
the limiter admits the first twelve and reports limited on the 13th; a
check 61 seconds after a lone hit passes. -/
theorem C5_rate_limiter_witness :
    (runChecks [] ts13).2 = (List.range ts13.length).map
      (fun k => decide (k + 1 > RATE_LIMIT_MAX)) ∧
    rate_limited [0] 61 = ([61], false) := by
  have h := C5_rate_limiter ts13 [0] 61 envW state0 ipW reqW
  refine ⟨h.2.1 ts13_window, h.2.2.1 ?_⟩
  intro t ht
  rw [List.mem_singleton] at ht
  subst ht
  rw [RATE_LIMIT_WINDOW_S]
  norm_num

/-! ## Exporter lemmas -/

/-- `r["alias"] or ""` is the identity on the stored (string-valued)
alias column. -/
theorem exportEntry_id (e : Entry) :
    ({ e with «alias» := if e.«alias» = "" then "" else e.«alias» } : Entry)
      = e := by
  by_cases he : e.«alias» = ""
  · cases e
    simp_all
  · simp [he]

/-- The exported entry list is exactly the ledger, field for field, in
insertion order. -/
theorem export_entries_eq (L : List Entry) (o b i : String) :
    (export_log_json L o b i).entries = L := by
  show L.map (fun e =>
    { e with «alias» := if e.«alias» = "" then "" else e.«alias» }) = L
  have h := List.map_congr_left (l := L)
    (g := id) (fun e _ => exportEntry_id e)
  rw [h, List.map_id]

/-- C6: every export produces one document holding the project metadata
(origin label, receiving address, export timestamp) together with the full
entry list of the ledger in ascending insertion order — the exported
entries equal the ledger row for row, so their count equals the ledger's
entry count — and an accepted submission whose export step runs rewrites
the exported document to exactly the export of the new ledger. -/
theorem C6_export_contract (L : List Entry) (o b i : String) :
    (export_log_json L o b i).origin_label = o ∧
    (export_log_json L o b i).btc_address = b ∧
    (export_log_json L o b i).exported_iso = i ∧
    (export_log_json L o b i).entries = L ∧
    (export_log_json L o b i).entries.length = L.length ∧
    (∀ (env : Env) (st st' : ServerState) (ip : String) (now : Rat)
      (req : SubmitReq), env.exportOk = true →
      api_submit env st ip now req = (st', SubmitResp.accepted) →
      st'.exported = some (export_log_json st'.ledger env.origin_label
        env.btc_address env.now_iso)) := by
  refine ⟨rfl, rfl, rfl, export_entries_eq L o b i,
    by rw [export_entries_eq], ?_⟩
  intro env st st' ip now req hE hacc
  obtain ⟨-, -, -, -, -, a, coords, -, -, hst⟩ :=
    api_submit_accept_inv env st st' ip now req hacc
  subst hst
  simp [hE]

/-- Witness for C6: exporting the empty ledger yields an empty entry list,
and the scenario submission's export is the export of its new ledger. -/
theorem C6_export_contract_witness :
    (export_log_json [] "o" "b" "i").entries = [] ∧
    stW.exported = some (export_log_json stW.ledger envW.origin_label
      envW.btc_address envW.now_iso) :=
  ⟨(C6_export_contract [] "o" "b" "i").2.2.2.1,
   (C6_export_contract [] "o" "b" "i").2.2.2.2.2 envW state0 stW ipW 0 reqW
     rfl accW⟩

/-- C7: exporting the same ledger twice with no intervening writes yields
two documents that agree on the entry list and the project metadata and
differ at most in the `exported_iso` timestamp: overriding the timestamp
of the first document gives the second. -/
theorem C7_export_idempotent (L : List Entry) (o b i₁ i₂ : String) :
    (export_log_json L o b i₁).entries = (export_log_json L o b i₂).entries ∧
    (export_log_json L o b i₁).origin_label =
      (export_log_json L o b i₂).origin_label ∧
    (export_log_json L o b i₁).btc_address =
      (export_log_json L o b i₂).btc_address ∧
    ({ export_log_json L o b i₁ with exported_iso := i₂ } : ExportDoc) =
      export_log_json L o b i₂ :=
  ⟨rfl, rfl, rfl, rfl⟩

/-- C8: once the gates pass and the insert succeeds, the response is
acceptance (HTTP 200) whether or not the export step succeeds, and the
committed append is identical in both cases — an export failure neither
rolls back the ledger nor reaches the submitter. -/
theorem C8_export_failure_isolation (env : Env) (st : ServerState)
    (ip : String) (now : Rat) (req : SubmitReq) (a : Rat)
    (coords : Rat × Rat)
    (hrl : (rate_limited (st.ipHits ip) now).2 = false)
    (hv : valid_txid (sanitize_text req.txid 64) = true)
    (hc : sanitize_text req.city CITY_MAX ≠ "")
    (hn : sanitize_text req.country COUNTRY_MAX ≠ "")
    (htx : tx_amount_to_our_address_btc env.txResp env.btc_address = some a)
    (hgeo : geocode_city_country env.geoResp = some coords)
    (hdup : hasTxid st.ledger (sanitize_text req.txid 64) = false) :
    ∀ ok : Bool,
      (api_submit { env with exportOk := ok } st ip now req).2 =
        SubmitResp.accepted ∧
      statusCode (api_submit { env with exportOk := ok } st ip now req).2 =
        200 ∧
      (api_submit { env with exportOk := ok } st ip now req).1.ledger =
        st.ledger ++ [mkEntry env req a coords] := by
  intro ok
  rw [api_submit_accept { env with exportOk := ok } st ip now req a coords
    hrl hv hc hn htx hgeo hdup]
  exact ⟨rfl, rfl, rfl⟩

/-- Witness for C8: the scenario submission is accepted and appends the
same single Entry whether the export step succeeds or is made to fail. -/
theorem C8_export_failure_isolation_witness :
    (api_submit { envW with exportOk := true } state0 ipW 0 reqW).2 =
      SubmitResp.accepted ∧
    (api_submit { envW with exportOk := false } state0 ipW 0 reqW).2 =
      SubmitResp.accepted ∧
    (api_submit { envW with exportOk := false } state0 ipW 0 reqW).1.ledger =
      state0.ledger ++ [entryW] := by
  have h := C8_export_failure_isolation envW state0 ipW 0 reqW amountW
    coordsW (by decide) (by decide) (by decide) (by decide) envW_tx envW_geo
    (by decide)
  exact ⟨(h true).1, (h false).1, (h false).2.2⟩

/-! ## Ledger well-formedness (C10) -/

/-- Every sanitizer output is in sanitized shape for its bound. -/
theorem sanitize_wfText (x : Option String) (n : Nat) :
    wfText (sanitize_text x n) n := by
  refine ⟨?_, ?_, ?_, ?_⟩
  · show (String.mk
      ((collapseWS (stripChars ((x.getD "").toList))).take n)).length ≤ n
    have h : (String.mk
        ((collapseWS (stripChars ((x.getD "").toList))).take n)).length =
        ((collapseWS (stripChars ((x.getD "").toList))).take n).length := rfl
    rw [h, List.length_take]
    exact min_le_left _ _
  · intro c hc
    have hc' : ((collapseWS (stripChars ((x.getD "").toList))).take n).head? =
        some c := hc
    rw [List.head?_take] at hc'
    by_cases hn : n = 0
    · rw [if_pos hn] at hc'
      exact absurd hc' (by simp)
    · rw [if_neg hn] at hc'
      exact collapseAux_head_of_head _
        (strip_head_not_space ((x.getD "").toList)) false c hc'
  · show ((collapseWS (stripChars ((x.getD "").toList))).take n).Chain' _
    exact (collapseAux_chain _ false).take n
  · intro c hc hs
    exact collapseAux_spaces _ false c (List.mem_of_mem_take hc) hs

/-- C10 counterexample: the submission with the 61-character city (59 `a`s,
a space, one more `a`) passes validation and is accepted, yet the stored
Entry's city is 60 characters ending in a space: a trailing whitespace
character survives truncation, so the claim that stored city fields have
no trailing whitespace run is false of the code. -/
theorem C10_ledger_invariant_counterexample :
    (api_submit envW state0 "192.0.2.10" 0 reqTrail).2 =
      SubmitResp.accepted ∧
    (api_submit envW state0 "192.0.2.10" 0 reqTrail).1.ledger.map
      Entry.city = [String.mk (List.replicate 59 'a' ++ [' '])] ∧
    (String.mk (List.replicate 59 'a' ++ [' '])).toList.getLast? =
      some ' ' ∧
    isPySpace ' ' = true := by
  refine ⟨by rw [accTrail], ?_, by decide, by decide⟩
  rw [accTrail]
  decide

/-- C10 (amended): every Entry ever stored has a 64-hex txid, non-empty
city and country of at most 60 characters, an alias of at most 30, and
text fields in sanitized shape — no leading whitespace, no two adjacent
whitespace characters, all whitespace a plain space; a single trailing
space may remain when truncation cuts at a collapsed space (the
counterexample shows it does), and lat, lng, amount_btc, iso_date are
present by construction.  Every submission preserves the invariant: the
single insert path runs only after sanitization and validation. -/
theorem C10_ledger_invariant_amended (env : Env) (st : ServerState)
    (ip : String) (now : Rat) (req : SubmitReq)
    (hwf : ∀ e ∈ st.ledger, entryWF e) :
    ∀ e ∈ (api_submit env st ip now req).1.ledger, entryWF e := by
  by_cases h1 : (rate_limited (st.ipHits ip) now).2 = true
  · rw [api_submit_quota env st ip now req h1]
    exact hwf
  · have h1' : (rate_limited (st.ipHits ip) now).2 = false := by simpa using h1
    by_cases h2 : valid_txid (sanitize_text req.txid 64) = true
    · by_cases h3 : sanitize_text req.city CITY_MAX = "" ∨
        sanitize_text req.country COUNTRY_MAX = ""
      · rw [api_submit_badLocation env st ip now req h1' h2 h3]
        exact hwf
      · push_neg at h3
        cases htx : tx_amount_to_our_address_btc env.txResp env.btc_address with
        | none =>
          rw [api_submit_payment_none env st ip now req h1' h2 h3.1 h3.2 htx]
          exact hwf
        | some a =>
          cases hgeo : geocode_city_country env.geoResp with
          | none =>
            rw [api_submit_geo_none env st ip now req a h1' h2 h3.1 h3.2 htx
              hgeo]
            exact hwf
          | some coords =>
            by_cases hdup : hasTxid st.ledger (sanitize_text req.txid 64) =
              true
            · rw [api_submit_duplicate env st ip now req a coords h1' h2 h3.1
                h3.2 htx hgeo hdup]
              exact hwf
            · have hdup' : hasTxid st.ledger (sanitize_text req.txid 64) =
                  false := by simpa using hdup
              rw [api_submit_accept env st ip now req a coords h1' h2 h3.1
                h3.2 htx hgeo hdup']
              intro e he
              rcases List.mem_append.mp he with h | h
              · exact hwf e h
              · rw [List.mem_singleton] at h
                subst h
                exact ⟨h2, h3.1, h3.2, sanitize_wfText _ _,
                  sanitize_wfText _ _, sanitize_wfText _ _⟩
    · have h2' : valid_txid (sanitize_text req.txid 64) = false := by
        simpa using h2
      rw [api_submit_badTxid env st ip now req h1' h2']
      exact hwf

/-- Witness for C10 (amended): the Entry committed by the scenario
submission from the empty ledger is well-formed. -/
theorem C10_ledger_invariant_amended_witness :
    valid_txid entryW.txid = true ∧ entryW.city ≠ "" := by
  have h := C10_ledger_invariant_amended envW state0 ipW 0 reqW
    (by simp [state0])
  have hm : entryW ∈ (api_submit envW state0 ipW 0 reqW).1.ledger := by
    rw [accW]
    exact List.mem_singleton.mpr rfl
  exact ⟨(h entryW hm).1, (h entryW hm).2.1⟩

end TravelServer
